import Mathlib

/-!
Verification of the otop session monitor (src/otop/main.py) against its
natural-language specification.  The Python source is shallowly embedded:
pure helper functions become Lean functions, the SQLite database becomes an
explicit record of rows, machine floats become rationals, and the uncaught
Python exception in the log-timestamp decoder is modelled with Except.
-/

namespace Otop

/-- One opencode process as assembled by get_opencode_processes: every field
comes from ps or the batched lsof call (main.py, ProcessInfo dataclass). -/
structure ProcessInfo where
  pid : Int
  cpu_percent : ℚ
  mem_mb : ℚ
  elapsed : String
  tty : String
  cwd : String
  cmdline : String
  session_id : Option String
  start_time_ms : Int
  is_tool_process : Bool
  deriving DecidableEq

/-- One row of the session table, restricted to the columns the correlator
reads (id, directory, time_updated). -/
structure SessRow where
  id : String
  directory : String
  time_updated : Int
  deriving DecidableEq

/-- One row of the message table, restricted to the columns the correlator
reads (session_id, time_created). -/
structure MsgRow where
  session_id : String
  time_created : Int
  deriving DecidableEq

/-- The opencode SQLite database as seen by the correlation queries. -/
structure DB where
  sessions : List SessRow
  messages : List MsgRow
  deriving DecidableEq

/-- A session as assembled by get_session_info, restricted to the fields the
status inferrer, the filter and the sort read (main.py, SessionInfo
dataclass). -/
structure SessionInfo where
  session_id : String
  title : String
  model : String
  message_count : Int
  total_input_tokens : Int
  total_cache_read : Int
  last_finish : Option String
  last_message_role : String
  last_message_time : Int
  round_start_time : Int
  last_output : String
  interactive : Bool
  deriving DecidableEq

/-! ## Status inference (infer_status, main.py lines 933-993) -/

/-- Age of the last message in seconds, as computed at the top of
infer_status: Python truthiness of last_message_time makes a zero (or
absent) timestamp yield the sentinel 9999. -/
def age_seconds (last_message_time now_ms : Int) : ℚ :=
  if last_message_time ≠ 0 then ((now_ms - last_message_time : Int) : ℚ) / 1000
  else 9999

/-- infer_status(session, cpu_percent): direct transcription of the nested
if-chain in main.py lines 959-993 (time.time() is passed in as now_ms). -/
def infer_status (session : SessionInfo) (now_ms : Int) (cpu_percent : ℚ) : String :=
  let age := age_seconds session.last_message_time now_ms
  if session.last_message_role = "assistant" then
    if session.last_finish = none ∨ session.last_finish = some "" then
      if age < 120 then "generating"
      else if 5 < cpu_percent then "busy"
      else "stale"
    else if session.last_finish = some "tool-calls" then
      if age < 30 then "tool use"
      else if 5 < cpu_percent then "busy"
      else "idle"
    else if session.last_finish = some "stop" then
      if 5 < cpu_percent then "busy" else "idle"
    else if session.last_finish = some "length" then "truncated"
    else "idle"
  else if session.last_message_role = "user" then
    if 5 < cpu_percent then "thinking"
    else if age < 60 then "thinking"
    else "queued"
  else "unknown"

/-- The decision table exactly as the claim states it, written over the
message age directly: assistant rows keyed on finish, the user row as a
disjunction, anything else unknown. -/
def claim_status_table (role : String) (finish : Option String) (age cpu : ℚ) : String :=
  if role = "assistant" then
    if finish = none ∨ finish = some "" then
      if age < 120 then "generating" else if 5 < cpu then "busy" else "stale"
    else if finish = some "tool-calls" then
      if age < 30 then "tool use" else if 5 < cpu then "busy" else "idle"
    else if finish = some "stop" then
      if 5 < cpu then "busy" else "idle"
    else if finish = some "length" then "truncated"
    else "idle"
  else if role = "user" then
    if 5 < cpu ∨ age < 60 then "thinking" else "queued"
  else "unknown"

/-! ## Log-timestamp decoder (_parse_log_timestamp, main.py lines 303-323) -/

/-- Value of an ASCII digit, none for any other character (models regex d). -/
def dval (c : Char) : Option Nat :=
  if c.isDigit then some (c.toNat - 48) else none

/-- Read exactly k digits from the front of the character list. -/
def readDigits : Nat → List Char → Option (Nat × List Char)
  | 0, cs => some (0, cs)
  | _ + 1, [] => none
  | k + 1, c :: cs =>
    match dval c with
    | some d => (readDigits k cs).map (fun r => (d * 10 ^ k + r.1, r.2))
    | none => none

/-- Consume one expected literal character. -/
def expectChar (c : Char) : List Char → Option (List Char)
  | [] => none
  | x :: xs => if x = c then some xs else none

/-- The anchored prefix match of the regex
YYYY-MM-DDTHHMMSS followed by a literal dot and the letters l o g;
re.match allows arbitrary trailing characters after the pattern. -/
def matchLogName (cs : List Char) : Option (Nat × Nat × Nat × Nat × Nat × Nat) := do
  let (y, cs) ← readDigits 4 cs
  let cs ← expectChar '-' cs
  let (mo, cs) ← readDigits 2 cs
  let cs ← expectChar '-' cs
  let (d, cs) ← readDigits 2 cs
  let cs ← expectChar 'T' cs
  let (h, cs) ← readDigits 2 cs
  let (mi, cs) ← readDigits 2 cs
  let (s, cs) ← readDigits 2 cs
  let cs ← expectChar '.' cs
  let cs ← expectChar 'l' cs
  let cs ← expectChar 'o' cs
  let _ ← expectChar 'g' cs
  return (y, mo, d, h, mi, s)

/-- os.path.basename: the part of the path after the last slash. -/
def basenameCh (cs : List Char) : List Char :=
  cs.foldl (fun acc c => if c = '/' then [] else acc ++ [c]) []

/-- Gregorian leap year. -/
def isLeap (y : Nat) : Bool :=
  decide (y % 4 = 0 ∧ (y % 100 ≠ 0 ∨ y % 400 = 0))

/-- Days in a month of a given year (0 for an out-of-range month). -/
def daysInMonth (y m : Nat) : Nat :=
  if m = 1 then 31 else if m = 2 then (if isLeap y then 29 else 28)
  else if m = 3 then 31 else if m = 4 then 30 else if m = 5 then 31
  else if m = 6 then 30 else if m = 7 then 31 else if m = 8 then 31
  else if m = 9 then 30 else if m = 10 then 31 else if m = 11 then 30
  else if m = 12 then 31 else 0

/-- Days elapsed in year y before month m begins. -/
def daysBeforeMonth (y m : Nat) : Nat :=
  let base :=
    if m = 1 then 0 else if m = 2 then 31 else if m = 3 then 59
    else if m = 4 then 90 else if m = 5 then 120 else if m = 6 then 151
    else if m = 7 then 181 else if m = 8 then 212 else if m = 9 then 243
    else if m = 10 then 273 else if m = 11 then 304 else 334
  if 3 ≤ m ∧ isLeap y then base + 1 else base

/-- The datetime validity check performed by the Python datetime
constructor: year within MINYEAR..MAXYEAR, a real calendar date, and
in-range time-of-day fields.  Outside this set the constructor raises. -/
def validDT (y mo d h mi s : Nat) : Bool :=
  decide (1 ≤ y ∧ y ≤ 9999 ∧ 1 ≤ mo ∧ mo ≤ 12 ∧ 1 ≤ d ∧ d ≤ daysInMonth y mo
    ∧ h ≤ 23 ∧ mi ≤ 59 ∧ s ≤ 59)

/-- Epoch milliseconds of a UTC wall-clock instant (the value of
int(datetime(.., tzinfo=utc).timestamp() * 1000) for a valid instant):
proleptic-Gregorian day count from 1970-01-01 times 86400000 plus the
time of day. -/
def utcEpochMs (y mo d h mi s : Nat) : Int :=
  let daysFromYear1 : Nat :=
    365 * (y - 1) + (y - 1) / 4 - (y - 1) / 100 + (y - 1) / 400
      + daysBeforeMonth y mo + (d - 1)
  ((daysFromYear1 : Int) - 719162) * 86400000
    + (h : Int) * 3600000 + (mi : Int) * 60000 + (s : Int) * 1000

/-- _parse_log_timestamp(logpath): zero when the regex does not match the
basename; the UTC epoch milliseconds when it matches and the fields form a
valid datetime; and an uncaught ValueError (modelled as Except.error) when
the regex matches but the datetime constructor rejects the fields. -/
def parse_log_timestamp (logpath : String) : Except Unit Int :=
  match matchLogName (basenameCh logpath.data) with
  | none => .ok 0
  | some (y, mo, d, h, mi, s) =>
    if validDT y mo d h mi s then .ok (utcEpochMs y mo d h mi s)
    else .error ()

/-! ## Explicit session-id extraction (get_opencode_processes, main.py
lines 417-421): re.search of the pattern
(start-or-whitespace) -s (whitespace)+ ses_(non-whitespace)+ -/

/-- ASCII whitespace, the characters regex s-class matches in these args. -/
def isSpaceC (c : Char) : Bool :=
  c = ' ' ∨ c = '\t' ∨ c = '\n' ∨ c = '\r' ∨ c = '\x0b' ∨ c = '\x0c'

/-- Try to match the tail of the pattern, minus the leading anchor, at the
head of the list: a dash, the letter s, one or more whitespace characters,
then the captured token ses_ followed by one or more non-whitespace
characters.  Returns the captured token. -/
def matchSesAt : List Char → Option String
  | '-' :: 's' :: rest =>
    let sp := rest.takeWhile isSpaceC
    let rest2 := rest.dropWhile isSpaceC
    if sp.isEmpty then none
    else
      match rest2 with
      | 's' :: 'e' :: 's' :: '_' :: rest3 =>
        let tok := rest3.takeWhile (fun c => ¬ isSpaceC c)
        if tok.isEmpty then none
        else some (String.mk ('s' :: 'e' :: 's' :: '_' :: tok))
      | _ => none
  | _ => none

/-- Leftmost re.search: the anchor is the string start at position zero or
any whitespace character, scanning start positions left to right. -/
def searchSes (first : Bool) : List Char → Option String
  | [] => none
  | c :: rest =>
    (if first then matchSesAt (c :: rest) else none).orElse fun _ =>
      (if isSpaceC c then matchSesAt rest else none).orElse fun _ =>
        searchSes false rest

/-- The session_id assignment in get_opencode_processes: the captured group
of re.search over the full args string, none when there is no match. -/
def extract_session_id (args : String) : Option String :=
  searchSes true args.data

/-! ## Correlator (find_session_for_process, main.py lines 619-677, and the
two-pass claimed-set algorithm of refresh_data, lines 1227-1270) -/

/-- Python truthiness of an optional string: false for None and for the
empty string. -/
def sidTruthy : Option String → Bool
  | none => false
  | some s => s ≠ ""

/-- First-match association-list lookup; assignments are modelled by
consing, so the first hit is the most recent write, matching dict
overwrite semantics. -/
def alookup (m : List (Int × String)) (k : Int) : Option String :=
  (m.find? fun e => e.1 = k).map fun e => e.2

/-- Stable insertion of x into a list sorted by the total preorder le:
x is placed before the first element it is le-below-or-equal, so earlier
elements win ties, as in Python sort. -/
def insortBy (le : α → α → Bool) (x : α) : List α → List α
  | [] => [x]
  | y :: ys => if le x y then x :: y :: ys else y :: insortBy le x ys

/-- Stable sort by a total preorder (the semantics of Python list.sort). -/
def sortBy (le : α → α → Bool) (l : List α) : List α :=
  l.foldr (insortBy le) []

/-- Number of messages of a session created at or after a start time
(the msgs_since aggregate of the tier-2 query). -/
def msgsSince (db : DB) (sid : String) (start : Int) : Nat :=
  (db.messages.filter fun m => m.session_id == sid && decide (start ≤ m.time_created)).length

/-- The tier-2 query: sessions in this directory having at least one
message at or after the start time (inner join plus group-by), ranked by
message count descending, limit 5.  SQLite leaves the order of equal
counts unspecified; ties keep the session-table order here. -/
def find_candidate_sessions (db : DB) (cwd : String) (start : Int) : List (String × Nat) :=
  ((db.sessions.filter fun r => r.directory == cwd).filterMap fun r =>
      let n := msgsSince db r.id start
      if 0 < n then some (r.id, n) else none)
    |> sortBy (fun a b => b.2 ≤ a.2) |>.take 5

/-- The tier-3 query: sessions in this directory by time_updated
descending, limit 5. -/
def find_recent_sessions (db : DB) (cwd : String) : List String :=
  ((db.sessions.filter fun r => r.directory == cwd)
    |> sortBy (fun a b => b.time_updated ≤ a.time_updated) |>.take 5).map fun r => r.id

/-- find_session_for_process(proc, claimed_session_ids): tier 1 returns an
explicit truthy session id unchecked; an unknown cwd returns none; tier 2
walks the candidate list for the first unclaimed id when the start time is
known; tier 3 walks the recency list for the first unclaimed id. -/
def find_session_for_process (db : DB) (proc : ProcessInfo)
    (claimed : List String) : Option String :=
  if sidTruthy proc.session_id then proc.session_id
  else if proc.cwd = "" ∨ proc.cwd = "?" then none
  else
    let tier2 :=
      if 0 < proc.start_time_ms then
        ((find_candidate_sessions db proc.cwd proc.start_time_ms).find? fun r =>
            ¬ r.1 ∈ claimed).map fun r => r.1
      else none
    match tier2 with
    | some s => some s
    | none => (find_recent_sessions db proc.cwd).find? fun s => ¬ s ∈ claimed

/-- Pass 1 step: a non-tool process with a truthy explicit session id
claims it and is recorded in resolved (the Python condition is the
truthiness of session_id and the negation of is_tool_process). -/
def pass1step (acc : List String × List (Int × String)) (p : ProcessInfo) :
    List String × List (Int × String) :=
  if sidTruthy p.session_id && !p.is_tool_process then
    (p.session_id.getD "" :: acc.1, (p.pid, p.session_id.getD "") :: acc.2)
  else acc

/-- Pass 2 step: an inferred match (when truthy) claims its session and is
recorded in resolved. -/
def pass2step (db : DB) (acc : List String × List (Int × String)) (p : ProcessInfo) :
    List String × List (Int × String) :=
  if sidTruthy (find_session_for_process db p acc.1) then
    ((find_session_for_process db p acc.1).getD "" :: acc.1,
     (p.pid, (find_session_for_process db p acc.1).getD "") :: acc.2)
  else acc

/-- get_session_info restricted to the identity-relevant behaviour the
snapshot claims need: the first session row with the requested id, none
when the id is absent from the database. -/
def get_session_info (db : DB) (sid : String) : Option SessRow :=
  db.sessions.find? fun r => r.id = sid

/-- The claimed set and resolved map after pass 1 of refresh_data. -/
def pass1of (ps : List ProcessInfo) : List String × List (Int × String) :=
  ps.foldl pass1step ([], [])

/-- The processes pass 2 considers: not resolved in pass 1, not tool
processes. -/
def remainingOf (ps : List ProcessInfo) : List ProcessInfo :=
  ps.filter fun p => (alookup (pass1of ps).2 p.pid).isNone && !p.is_tool_process

/-- The claimed set and resolved map after pass 2: the remaining
processes sorted by start_time_ms ascending (oldest first), folded over
find_session_for_process with the growing claimed set. -/
def pass2of (db : DB) (ps : List ProcessInfo) : List String × List (Int × String) :=
  (sortBy (fun a b => a.start_time_ms ≤ b.start_time_ms) (remainingOf ps)).foldl
    (pass2step db) (pass1of ps)

/-- The session bound to one process in the final assembly: look the pid
up in resolved and fetch the session info when the id is truthy. -/
def bindingOf (db : DB) (ps : List ProcessInfo) (p : ProcessInfo) : Option SessRow :=
  match alookup (pass2of db ps).2 p.pid with
  | some s => if s ≠ "" then get_session_info db s else none
  | none => none

/-- refresh_data: pass 1 over processes in order; pass 2 over the
remaining non-tool, unresolved processes sorted by start_time_ms
ascending; then the (process, session) pairs in original process order. -/
def refresh_data (db : DB) (ps : List ProcessInfo) :
    List (ProcessInfo × Option SessRow) :=
  ps.map fun p => (p, bindingOf db ps p)

/-- All non-absent bound session ids of a snapshot, in row order. -/
def allBoundIds (res : List (ProcessInfo × Option SessRow)) : List String :=
  res.filterMap fun pr => pr.2.map fun r => r.id

/-- Bound ids of rows whose process has no truthy explicit -s flag. -/
def inferredBoundIds (res : List (ProcessInfo × Option SessRow)) : List String :=
  res.filterMap fun pr =>
    if sidTruthy pr.1.session_id then none else pr.2.map fun r => r.id

/-- Bound ids of rows whose process has a truthy explicit -s flag. -/
def explicitBoundIds (res : List (ProcessInfo × Option SessRow)) : List String :=
  res.filterMap fun pr =>
    if sidTruthy pr.1.session_id then pr.2.map fun r => r.id else none

/-! ## View-state filter and sort (_sort_value, main.py lines 1103-1137,
and _get_visible_sessions, lines 1272-1301) -/

/-- A primary sort value: Python compares numbers with numbers and strings
with strings inside the key tuple. -/
inductive SVal where
  | i : Int → SVal
  | q : ℚ → SVal
  | s : String → SVal
  deriving DecidableEq

/-- Numeric reading of a sort value, none for strings. -/
def SVal.toRat : SVal → Option ℚ
  | .i n => some (n : ℚ)
  | .q x => some x
  | .s _ => none

/-- Python-style less-than on sort values (numeric cross-comparison
between ints and floats, lexicographic on strings). -/
def SVal.ltv : SVal → SVal → Bool
  | .s a, .s b => a < b
  | x, y =>
    match x.toRat, y.toRat with
    | some a, some b => a < b
    | _, _ => false

/-- Python-style equality on sort values. -/
def SVal.eqv : SVal → SVal → Bool
  | .s a, .s b => a = b
  | x, y =>
    match x.toRat, y.toRat with
    | some a, some b => a = b
    | _, _ => false

/-- The composite sort key (has_no_session, primary, lowercased title). -/
abbrev SKey := Nat × SVal × String

/-- Lexicographic at-most comparison of composite keys, as Python compares
the tuples returned by _sort_value. -/
def keyLe (a b : SKey) : Bool :=
  a.1 < b.1 ∨ (a.1 = b.1 ∧
    (SVal.ltv a.2.1 b.2.1 ∨ (SVal.eqv a.2.1 b.2.1 ∧ a.2.2 ≤ b.2.2)))

/-- ASCII lowercase of a string (str.lower on the data these fields hold). -/
def lowerStr (s : String) : String :=
  String.mk (s.data.map Char.toLower)

/-- Does the second list start with the first one. -/
def startsWithCh : List Char → List Char → Bool
  | [], _ => true
  | _ :: _, [] => false
  | a :: as, b :: bs => a = b && startsWithCh as bs

/-- Substring search over characters. -/
def containsSubCh (n : List Char) : List Char → Bool
  | [] => startsWithCh n []
  | c :: cs => startsWithCh n (c :: cs) || containsSubCh n cs

/-- Python substring containment (the in operator). -/
def containsSub (needle hay : String) : Bool :=
  containsSubCh needle.data hay.data

/-- _sort_value(key, proc, session): the composite key tuple; rows with no
session collapse to (1, 0, empty) so they compare after all session rows
under ascending order. -/
def sort_value (key : String) (now_ms : Int) (proc : ProcessInfo)
    (session : Option SessionInfo) : SKey :=
  match session with
  | none => (1, .i 0, "")
  | some s =>
    let primary : SVal :=
      if key = "pid" then .i proc.pid
      else if key = "sid" then .s s.session_id
      else if key = "tty" then .s proc.tty
      else if key = "cpu" then .q proc.cpu_percent
      else if key = "mem" then .q proc.mem_mb
      else if key = "status" then .s (infer_status s now_ms proc.cpu_percent)
      else if key = "model" then .s s.model
      else if key = "msgs" then .i s.message_count
      else if key = "tokens" then .i s.total_input_tokens
      else if key = "title" then .s (lowerStr s.title)
      else if key = "uptime" then
        .i (if 0 < proc.start_time_ms then proc.start_time_ms else now_ms)
      else if key = "round" then
        .i (if 0 < s.round_start_time then now_ms - s.round_start_time else 0)
      else if key = "last" then .s s.last_output
      else .i 0
    (0, primary, lowerStr s.title)

/-- The sortable column keys, in cycling order (COLUMNS, main.py). -/
def COLUMNS : List String :=
  ["status", "title", "last", "msgs", "sid", "pid", "uptime", "round",
   "cpu", "mem", "tokens", "model", "tty"]

/-- The filter predicate: case-insensitive substring match against title,
model, session id, cwd, tty and inferred status (absent session fields
read as the empty string). -/
def passesFilter (needle : String) (now_ms : Int)
    (pr : ProcessInfo × Option SessionInfo) : Bool :=
  let p := pr.1
  containsSub needle (match pr.2 with | some s => lowerStr s.title | none => "")
    || containsSub needle (match pr.2 with | some s => lowerStr s.model | none => "")
    || containsSub needle (match pr.2 with | some s => lowerStr s.session_id | none => "")
    || containsSub needle (lowerStr p.cwd)
    || containsSub needle (lowerStr p.tty)
    || containsSub needle
        (match pr.2 with
         | some s => lowerStr (infer_status s now_ms p.cpu_percent)
         | none => "")

/-- _get_visible_sessions: hide tool and no-session rows unless toggled,
hide non-interactive sessions unless toggled, apply the substring filter,
then stable-sort by the composite key of the active column, optionally
reversed (Python reverse sort flips comparisons but keeps ties in
original order). -/
def get_visible_sessions (rows : List (ProcessInfo × Option SessionInfo))
    (show_all_processes show_all_sessions : Bool) (filter_text : String)
    (sort_key : String) (sort_reverse : Bool) (now_ms : Int) :
    List (ProcessInfo × Option SessionInfo) :=
  let f1 := if show_all_processes then rows
    else rows.filter fun pr => !pr.1.is_tool_process && pr.2.isSome
  let f2 := if show_all_sessions then f1
    else f1.filter fun pr =>
      match pr.2 with | none => true | some s => s.interactive
  let f3 := if filter_text ≠ "" then
      f2.filter (passesFilter (lowerStr filter_text) now_ms)
    else f2
  let key := fun pr : ProcessInfo × Option SessionInfo =>
    sort_value sort_key now_ms pr.1 pr.2
  sortBy (fun a b =>
    if sort_reverse then keyLe (key b) (key a) else keyLe (key a) (key b)) f3

/-! ## Token formatting (format_tokens, main.py lines 891-899) -/

/-- Round a rational to the nearest integer, ties to even: the rounding
applied by one-decimal float formatting (the binary float value is
modelled by the exact quotient). -/
def rhe (q : ℚ) : ℤ :=
  if q - ⌊q⌋ < 1 / 2 then ⌊q⌋
  else if 1 / 2 < q - ⌊q⌋ then ⌊q⌋ + 1
  else if 2 ∣ ⌊q⌋ then ⌊q⌋ else ⌊q⌋ + 1

/-- A formatted token count, split into the numeric value printed before
the suffix and the suffix letter. -/
structure TokStr where
  pfx : ℚ
  sfx : String
  deriving DecidableEq

/-- format_tokens(n): counts of a million or more print as tenths of
millions with suffix M, of a thousand or more as tenths of thousands with
suffix K, otherwise the integer itself with no suffix. -/
def format_tokens (n : ℕ) : TokStr :=
  if 1000000 ≤ n then ⟨(rhe ((10 * n : ℚ) / 1000000) : ℤ) / 10, "M"⟩
  else if 1000 ≤ n then ⟨(rhe ((10 * n : ℚ) / 1000) : ℤ) / 10, "K"⟩
  else ⟨(n : ℚ), ""⟩

/-- The count a formatted string denotes: its numeric value times the
multiplier of its suffix. -/
def tokDenote (t : TokStr) : ℚ :=
  t.pfx * (if t.sfx = "M" then 1000000 else if t.sfx = "K" then 1000 else 1)

/-! ## CLI startup (cli, main.py lines 2143-2159) -/

/-- An output stream of the process. -/
inductive Chan where
  | stdout
  | stderr
  deriving DecidableEq

/-- What startup does before any TUI work: the lines it prints with their
streams, and whether it exits (with which code) or proceeds into the TUI. -/
structure CliStartup where
  lines : List (Chan × String)
  exitCode : Option Nat
  deriving DecidableEq

/-- The startup-failure line as formatted by cli. -/
def dbMissingLine (dbPath : String) : String :=
  "error: opencode db not found at " ++ dbPath

/-- cli(): when the database file is absent, print one line (Python print
writes to stdout) and raise SystemExit(1); otherwise proceed into the TUI
(exitCode none). -/
def cli (dbExists : Bool) (dbPath : String) : CliStartup :=
  if dbExists then ⟨[], none⟩
  else ⟨[(Chan.stdout, dbMissingLine dbPath)], some 1⟩

/-! ## Concrete records used by witnesses and counterexamples -/

/-- A neutral process record; concrete scenarios update its fields. -/
def procBase : ProcessInfo where
  pid := 0
  cpu_percent := 0
  mem_mb := 0
  elapsed := ""
  tty := ""
  cwd := "?"
  cmdline := ""
  session_id := none
  start_time_ms := 0
  is_tool_process := false

/-- A session whose database state lags the model: assistant message with
empty finish committed 300 seconds ago. -/
def sessDbLag : SessionInfo where
  session_id := "ses_lag"
  title := "lagging"
  model := "m"
  message_count := 4
  total_input_tokens := 100
  total_cache_read := 0
  last_finish := some ""
  last_message_role := "assistant"
  last_message_time := 1000
  round_start_time := 0
  last_output := ""
  interactive := true

/-- Zero last-message-time variants for the C10 witness. -/
def sessZeroGen : SessionInfo :=
  { sessDbLag with last_finish := none, last_message_time := 0 }

def sessZeroTool : SessionInfo :=
  { sessDbLag with last_finish := some "tool-calls", last_message_time := 0 }

def sessZeroUser : SessionInfo :=
  { sessDbLag with last_message_role := "user", last_message_time := 0 }

/-- Two distinct processes both started with -s ses_A (C2 counterexample). -/
def exP1 : ProcessInfo :=
  { procBase with
    pid := 1
    cwd := "/home/u"
    cmdline := "opencode -s ses_A"
    session_id := some "ses_A" }

def exP2 : ProcessInfo :=
  { procBase with
    pid := 2
    cwd := "/home/u"
    cmdline := "opencode -s ses_A"
    session_id := some "ses_A" }

/-- A database containing the session both flags name. -/
def exDB2 : DB := ⟨[⟨"ses_A", "/home/u", 500⟩], []⟩

/-- Tool-process scenario (C5 witness): an opencode run process with an
explicit flag and a matching directory, next to a real interactive
process. -/
def wDB5 : DB := ⟨[⟨"ses_A", "/home/u", 500⟩], [⟨"ses_A", 150⟩]⟩

def wTool : ProcessInfo :=
  { procBase with
    pid := 400
    cwd := "/home/u"
    cmdline := "opencode run build"
    session_id := some "ses_A"
    start_time_ms := 100
    is_tool_process := true }

def wInter : ProcessInfo :=
  { procBase with
    pid := 401
    cwd := "/home/u"
    cmdline := "opencode"
    start_time_ms := 100 }

/-- Mixed explicit and inferred bindings (C2 amended witness). -/
def wDB2 : DB :=
  ⟨[⟨"ses_A", "/home/u", 500⟩, ⟨"ses_E", "/home/v", 400⟩], [⟨"ses_A", 150⟩]⟩

def wExplicitP : ProcessInfo :=
  { procBase with
    pid := 7
    cwd := "/home/v"
    cmdline := "opencode -s ses_E"
    session_id := some "ses_E" }

def wInferP : ProcessInfo :=
  { procBase with
    pid := 8
    cwd := "/home/u"
    cmdline := "opencode"
    start_time_ms := 100 }

/-- Two processes sharing a cwd (C3 witness), with session A more active
since the older start and session B still active since the newer start. -/
def wDB3 : DB :=
  ⟨[⟨"ses_A", "/home/u", 1300⟩, ⟨"ses_B", "/home/u", 1130⟩],
   [⟨"ses_A", 150⟩, ⟨"ses_A", 250⟩, ⟨"ses_B", 250⟩]⟩

def w3A : SessRow := ⟨"ses_A", "/home/u", 1300⟩

def w3B : SessRow := ⟨"ses_B", "/home/u", 1130⟩

def w3P : ProcessInfo :=
  { procBase with
    pid := 100
    cwd := "/home/u"
    cmdline := "opencode"
    start_time_ms := 100 }

def w3Q : ProcessInfo :=
  { procBase with
    pid := 200
    cwd := "/home/u"
    cmdline := "opencode"
    start_time_ms := 200 }

/-- View rows for the C7 evaluation: one bound row, one no-session row. -/
def sessAlpha : SessionInfo where
  session_id := "ses_X"
  title := "alpha"
  model := "m"
  message_count := 3
  total_input_tokens := 10
  total_cache_read := 0
  last_finish := some "stop"
  last_message_role := "assistant"
  last_message_time := 1000
  round_start_time := 0
  last_output := "done"
  interactive := true

def viewProcA : ProcessInfo :=
  { procBase with pid := 10, cwd := "/home/u", start_time_ms := 100 }

def viewProcB : ProcessInfo :=
  { procBase with pid := 11, cwd := "/home/u" }

/-- A sample expansion of the database path used in the startup theorems. -/
def dbPathExample : String := "/home/u/.local/share/opencode/opencode.db"

end Otop

namespace Otop

/-! # Helper lemmas -/

theorem mem_insortBy {le : α → α → Bool} {x y : α} {l : List α} :
    y ∈ insortBy le x l ↔ y = x ∨ y ∈ l := by
  induction l with
  | nil => simp [insortBy]
  | cons a as ih =>
    simp only [insortBy]
    split_ifs <;> simp [ih] <;> tauto

theorem mem_sortBy {le : α → α → Bool} {y : α} {l : List α} :
    y ∈ sortBy le l ↔ y ∈ l := by
  induction l with
  | nil => simp [sortBy]
  | cons a as ih =>
    show y ∈ insortBy le a (sortBy le as) ↔ _
    rw [mem_insortBy, ih]
    simp

theorem alookup_mem {m : List (Int × String)} {k : Int} {v : String}
    (h : alookup m k = some v) : (k, v) ∈ m := by
  unfold alookup at h
  rcases Option.map_eq_some'.mp h with ⟨e, he, hev⟩
  have hmem := List.mem_of_find?_eq_some he
  have hp := List.find?_some he
  have : e.1 = k := by simpa using hp
  have : e = (k, v) := by
    cases e
    simp_all
  rw [← this]
  exact hmem

theorem alookup_isSome_of_mem {m : List (Int × String)} {k : Int} {v : String}
    (h : (k, v) ∈ m) : (alookup m k).isSome := by
  unfold alookup
  have hs : (m.find? fun e => e.1 = k).isSome :=
    List.find?_isSome.mpr ⟨(k, v), h, by simp⟩
  rcases Option.isSome_iff_exists.mp hs with ⟨e, he⟩
  simp [he]

theorem find_first_of_nodup {l : List SessRow} {r : SessRow}
    (hnd : (l.map fun x => x.id).Nodup) (hr : r ∈ l) :
    (l.find? fun x => x.id = r.id) = some r := by
  induction l with
  | nil => cases hr
  | cons h t ih =>
    simp only [List.map_cons, List.nodup_cons] at hnd
    rcases List.mem_cons.mp hr with rfl | hrt
    · simp [List.find?]
    · have hne : ¬ h.id = r.id := by
        intro he
        exact hnd.1 (he ▸ List.mem_map_of_mem (fun x => x.id) hrt)
      simp only [List.find?, hne, decide_False]
      exact ih hnd.2 hrt

theorem find_unique_session {db : DB} {r : SessRow}
    (hnd : (db.sessions.map fun x => x.id).Nodup) (hr : r ∈ db.sessions) :
    get_session_info db r.id = some r :=
  find_first_of_nodup hnd hr

/-! # Claim theorems -/

/-- C1: infer_status implements the claimed decision table exactly, for
every role, finish reason, message time and CPU percentage; in particular
an assistant message with empty finish, 300 seconds old, at 47 percent CPU
is classified busy. -/
theorem C1_infer_status_matches_table :
    (∀ (s : SessionInfo) (now_ms : Int) (cpu : ℚ),
        infer_status s now_ms cpu =
          claim_status_table s.last_message_role s.last_finish
            (age_seconds s.last_message_time now_ms) cpu) ∧
      infer_status sessDbLag 301000 47 = "busy" := by
  constructor
  · intro s now_ms cpu
    unfold infer_status claim_status_table
    by_cases hcpu : (5 : ℚ) < cpu <;>
      by_cases hage : age_seconds s.last_message_time now_ms < 60 <;>
        simp [hcpu, hage]
  · have hage : age_seconds 1000 301000 = 300 := by
      norm_num [age_seconds]
    norm_num [infer_status, hage, sessDbLag]

/-- C10: a zero (or absent) last_message_time makes the message age read
as 9999 seconds, so with CPU at or below the threshold an assistant
message with empty finish is stale, a tool-calls finish is idle, and a
user message is queued. -/
theorem C10_zero_message_time (s : SessionInfo) (now_ms : Int) (cpu : ℚ)
    (h0 : s.last_message_time = 0) (hcpu : cpu ≤ 5) :
    age_seconds s.last_message_time now_ms = 9999 ∧
    (s.last_message_role = "assistant" →
      (s.last_finish = none ∨ s.last_finish = some "") →
      infer_status s now_ms cpu = "stale") ∧
    (s.last_message_role = "assistant" → s.last_finish = some "tool-calls" →
      infer_status s now_ms cpu = "idle") ∧
    (s.last_message_role = "user" → infer_status s now_ms cpu = "queued") := by
  have hc : ¬ (5 : ℚ) < cpu := not_lt.mpr hcpu
  have hage : age_seconds s.last_message_time now_ms = 9999 := by
    simp [age_seconds, h0]
  refine ⟨hage, ?_, ?_, ?_⟩
  · intro hrole hfin
    rcases hfin with h | h <;>
      norm_num [infer_status, hage, hrole, h, hc]
  · intro hrole hfin
    norm_num [infer_status, hage, hrole, hfin, hc,
      show ("tool-calls" : String) ≠ "" by decide]
    all_goals exact fun h => nomatch h
  · intro hrole
    norm_num [infer_status, hage, hrole, hc,
      show ("user" : String) ≠ "assistant" by decide]

theorem C10_zero_message_time_witness :
    infer_status sessZeroGen 5000 0 = "stale" ∧
    infer_status sessZeroTool 5000 0 = "idle" ∧
    infer_status sessZeroUser 5000 0 = "queued" := by
  refine ⟨?_, ?_, ?_⟩
  · exact (C10_zero_message_time sessZeroGen 5000 0 rfl (by norm_num)).2.1
      rfl (Or.inl rfl)
  · exact (C10_zero_message_time sessZeroTool 5000 0 rfl (by norm_num)).2.2.1
      rfl rfl
  · exact (C10_zero_message_time sessZeroUser 5000 0 rfl (by norm_num)).2.2.2 rfl

/-- C4: the decoder parses a well-formed log basename as UTC epoch
milliseconds (2026-02-20T14:56:58Z is 1771599418000, the UTC value, not a
local-time one), but a basename the regex accepts whose fields are not a
valid calendar instant makes the Python datetime constructor raise an
uncaught ValueError instead of returning zero: month 13 aborts the
snapshot instead of being treated as malformed. -/
theorem C4_parse_log_timestamp_eval :
    parse_log_timestamp "2026-13-01T000000.log" = Except.error () ∧
    parse_log_timestamp "/Users/u/.local/share/opencode/log/2026-02-20T145658.log"
      = Except.ok 1771599418000 ∧
    parse_log_timestamp "no-timestamp.log" = Except.ok 0 := by
  refine ⟨rfl, rfl, rfl⟩

/-- C6: the session-flag regex recognises -s followed by a ses_ token, but
never the long form: an args string using only --session yields no
explicit session id, although the claim (and the module docstring) says it
is parsed. -/
theorem C6_extract_session_id_eval :
    extract_session_id "opencode --session ses_abc123" = none ∧
    extract_session_id "opencode -s ses_abc123" = some "ses_abc123" := by
  refine ⟨by decide, by decide⟩

/-- C7: under a descending sort the composite key places the no-session
row before the bound row, not after it: with the same two rows the
ascending order ends with the no-session row and the descending order
starts with it, contradicting the claim that no-session rows appear after
bound rows in both directions. -/
theorem C7_descending_sort_eval :
    get_visible_sessions [(viewProcA, some sessAlpha), (viewProcB, none)]
        true false "" "status" true 2000
      = [(viewProcB, none), (viewProcA, some sessAlpha)] ∧
    get_visible_sessions [(viewProcA, some sessAlpha), (viewProcB, none)]
        true false "" "status" false 2000
      = [(viewProcA, some sessAlpha), (viewProcB, none)] := by
  refine ⟨by decide, by decide⟩

/-- C8 counterexample: with the database absent, startup writes its single
line to stdout and nothing at all to stderr, so the claim that the line
goes to stderr is false. -/
theorem C8_stderr_counterexample :
    (cli false dbPathExample).lines.map Prod.fst = [Chan.stdout] ∧
    ((cli false dbPathExample).lines.filter fun l => l.1 = Chan.stderr) = [] := by
  refine ⟨by decide, by decide⟩

/-- C8 amended: with the database absent, startup prints exactly one line
(to stdout) and exits with code 1 before the TUI; with it present,
startup proceeds into the TUI. -/
theorem C8_startup_amended :
    (∀ path, cli false path =
      ⟨[(Chan.stdout, dbMissingLine path)], some 1⟩) ∧
    (∀ path, cli true path = ⟨[], none⟩) := by
  exact ⟨fun path => rfl, fun path => rfl⟩

/-- C9 counterexample: the numeric value printed before the suffix drops
at the K boundary: 999 formats as 999 and 1000 as 1.0K, so the prefix is
not monotone as claimed. -/
theorem sidTruthy_true_iff {o : Option String} :
    sidTruthy o = true ↔ ∃ s, o = some s ∧ s ≠ "" := by
  cases o <;> simp [sidTruthy]

theorem pass1step_sub (acc : List String × List (Int × String))
    (p : ProcessInfo) :
    acc.2 ⊆ (pass1step acc p).2 ∧ acc.1 ⊆ (pass1step acc p).1 := by
  unfold pass1step
  split_ifs
  · exact ⟨fun e he => List.mem_cons_of_mem _ he,
      fun s hs => List.mem_cons_of_mem _ hs⟩
  · exact ⟨fun _ h => h, fun _ h => h⟩

theorem pass1_acc_sub (ps : List ProcessInfo)
    (acc : List String × List (Int × String)) :
    acc.2 ⊆ (ps.foldl pass1step acc).2 ∧ acc.1 ⊆ (ps.foldl pass1step acc).1 := by
  induction ps generalizing acc with
  | nil => exact ⟨fun _ h => h, fun _ h => h⟩
  | cons p ps ih =>
    have step := ih (pass1step acc p)
    have hsub := pass1step_sub acc p
    exact ⟨fun e he => step.1 (hsub.1 he), fun s hs => step.2 (hsub.2 hs)⟩

theorem pass1_entries (ps : List ProcessInfo)
    (acc : List String × List (Int × String)) (e : Int × String)
    (he : e ∈ (ps.foldl pass1step acc).2) :
    e ∈ acc.2 ∨ ∃ p ∈ ps, p.pid = e.1 ∧ p.session_id = some e.2 ∧
      p.is_tool_process = false ∧ e.2 ≠ "" := by
  induction ps generalizing acc with
  | nil => exact Or.inl he
  | cons p ps ih =>
    rcases ih (pass1step acc p) he with hacc | ⟨q, hq, hrest⟩
    · unfold pass1step at hacc
      split_ifs at hacc with hcond
      · rw [Bool.and_eq_true] at hcond
        rcases sidTruthy_true_iff.mp hcond.1 with ⟨s, hsid, hs0⟩
        have htool : p.is_tool_process = false := by
          simpa using hcond.2
        have hgetD : p.session_id.getD "" = s := by rw [hsid]; rfl
        rw [hgetD] at hacc
        rcases List.mem_cons.mp hacc with rfl | hmem
        · exact Or.inr ⟨p, List.mem_cons_self p ps, rfl, hsid, htool, hs0⟩
        · exact Or.inl hmem
      · exact Or.inl hacc
    · exact Or.inr ⟨q, List.mem_cons_of_mem p hq, hrest⟩

theorem pass1_mem_of_explicit (ps : List ProcessInfo)
    (acc : List String × List (Int × String)) (p : ProcessInfo) (hp : p ∈ ps)
    (s : String) (hs : p.session_id = some s) (hs0 : s ≠ "")
    (ht : p.is_tool_process = false) :
    (p.pid, s) ∈ (ps.foldl pass1step acc).2 ∧ s ∈ (ps.foldl pass1step acc).1 := by
  induction ps generalizing acc with
  | nil => cases hp
  | cons q ps ih =>
    rcases List.mem_cons.mp hp with rfl | hp'
    · have hcond : (sidTruthy p.session_id && !p.is_tool_process) = true := by
        rw [hs, ht]
        simp [sidTruthy, hs0]
      have hstep : (p.pid, s) ∈ (pass1step acc p).2 ∧ s ∈ (pass1step acc p).1 := by
        unfold pass1step
        rw [if_pos hcond, hs]
        exact ⟨List.mem_cons_self _ _, List.mem_cons_self _ _⟩
      have hmono := pass1_acc_sub ps (pass1step acc p)
      exact ⟨hmono.1 hstep.1, hmono.2 hstep.2⟩
    · exact ih (pass1step acc q) hp'

theorem find_session_fresh (db : DB) (p : ProcessInfo) (cl : List String)
    (s : String) (hsid : sidTruthy p.session_id = false)
    (h : find_session_for_process db p cl = some s) : s ∉ cl := by
  unfold find_session_for_process at h
  rw [hsid] at h
  simp only [Bool.false_eq_true, if_false] at h
  split_ifs at h with hcwd hstart
  · rcases hm : List.find? (fun r => decide (r.1 ∉ cl))
        (find_candidate_sessions db p.cwd p.start_time_ms) with _ | r
    · rw [hm] at h
      have h' : (find_recent_sessions db p.cwd).find? (fun t => decide (t ∉ cl))
          = some s := h
      have hpred := List.find?_some h'
      simpa using hpred
    · rw [hm] at h
      have h' : some r.1 = some s := h
      have hpred := List.find?_some hm
      rw [← Option.some.inj h']
      simpa using hpred
  · have h' : (find_recent_sessions db p.cwd).find? (fun t => decide (t ∉ cl))
        = some s := h
    have hpred := List.find?_some h'
    simpa using hpred

theorem pass2_fold_spec (db : DB) (l : List ProcessInfo)
    (hl : ∀ p ∈ l, sidTruthy p.session_id = false) :
    ∀ (cl : List String) (res : List (Int × String)),
    ∃ new : List (Int × String),
      (l.foldl (pass2step db) (cl, res)).2 = new ++ res ∧
      (l.foldl (pass2step db) (cl, res)).1 = (new.map fun e => e.2) ++ cl ∧
      (∀ e ∈ new, ∃ p ∈ l, p.pid = e.1) ∧
      (new.map fun e => e.2).Nodup ∧
      (∀ s ∈ new.map fun e => e.2, s ∉ cl) := by
  induction l with
  | nil => exact fun cl res => ⟨[], rfl, rfl, by simp, by simp, by simp⟩
  | cons p l ih =>
    intro cl res
    have hp := hl p (List.mem_cons_self p l)
    have hl' : ∀ q ∈ l, sidTruthy q.session_id = false := fun q hq =>
      hl q (List.mem_cons_of_mem p hq)
    simp only [List.foldl_cons]
    cases hb : sidTruthy (find_session_for_process db p cl) with
    | false =>
      have hacc : pass2step db (cl, res) p = (cl, res) := by
        unfold pass2step
        rw [hb]
        rfl
      rw [hacc]
      rcases ih hl' cl res with ⟨new, h1, h2, h3, h4, h5⟩
      exact ⟨new, h1, h2,
        fun e he => (h3 e he).imp fun q hq => ⟨List.mem_cons_of_mem p hq.1, hq.2⟩,
        h4, h5⟩
    | true =>
      rcases sidTruthy_true_iff.mp hb with ⟨s, hstep, hs⟩
      have hacc : pass2step db (cl, res) p = (s :: cl, (p.pid, s) :: res) := by
        unfold pass2step
        rw [if_pos hb, hstep]
        rfl
      rw [hacc]
      rcases ih hl' (s :: cl) ((p.pid, s) :: res) with ⟨new, h1, h2, h3, h4, h5⟩
      refine ⟨new ++ [(p.pid, s)], ?_, ?_, ?_, ?_, ?_⟩
      · rw [h1]
        simp
      · rw [h2]
        simp
      · intro e he
        rcases List.mem_append.mp he with he' | he'
        · exact ((h3 e he').imp fun q hq => ⟨List.mem_cons_of_mem p hq.1, hq.2⟩)
        · rcases List.mem_singleton.mp he' with rfl
          exact ⟨p, List.mem_cons_self p l, rfl⟩
      · rw [List.map_append]
        refine List.Nodup.append h4 (by simp) ?_
        intro v hv hv'
        rcases List.mem_singleton.mp (by simpa using hv') with rfl
        exact (h5 v hv) (List.mem_cons_self _ _)
      · intro v hv
        rw [List.map_append] at hv
        rcases List.mem_append.mp hv with hv' | hv'
        · exact fun hvcl => (h5 v hv') (List.mem_cons_of_mem _ hvcl)
        · rcases List.mem_singleton.mp (by simpa using hv') with rfl
          exact find_session_fresh db p cl v hp hstep

theorem sorted_props {ps : List ProcessInfo} {p : ProcessInfo}
    (hp : p ∈ sortBy (fun a b => a.start_time_ms ≤ b.start_time_ms) (remainingOf ps)) :
    p ∈ ps ∧ p.is_tool_process = false ∧ sidTruthy p.session_id = false := by
  have hp' : p ∈ remainingOf ps := mem_sortBy.mp hp
  have := List.mem_filter.mp hp'
  rcases this with ⟨hmem, hcond⟩
  have hcond' := hcond
  rw [Bool.and_eq_true] at hcond'
  have htool : p.is_tool_process = false := by
    rcases hcond' with ⟨_, h2⟩
    simpa using h2
  refine ⟨hmem, htool, ?_⟩
  by_contra hne
  have htruthy : sidTruthy p.session_id = true := by
    cases h : sidTruthy p.session_id
    · exact absurd h hne
    · rfl
  rcases sidTruthy_true_iff.mp htruthy with ⟨s, hs, hs0⟩
  have hentry := pass1_mem_of_explicit ps ([], []) p hmem s hs hs0 htool
  have hsome := alookup_isSome_of_mem hentry.1
  rcases hcond' with ⟨h1, _⟩
  rw [Option.isNone_iff_eq_none] at h1
  rw [show ps.foldl pass1step ([], []) = pass1of ps from rfl] at hsome
  rw [h1] at hsome
  cases hsome

theorem pass2_entries (db : DB) (ps : List ProcessInfo) (e : Int × String)
    (he : e ∈ (pass2of db ps).2) :
    ∃ p ∈ ps, p.pid = e.1 ∧ p.is_tool_process = false := by
  unfold pass2of at he
  rcases pass2_fold_spec db
      (sortBy (fun a b => a.start_time_ms ≤ b.start_time_ms) (remainingOf ps))
      (fun q hq => (sorted_props hq).2.2) (pass1of ps).1 (pass1of ps).2 with
    ⟨new, h1, _, h3, _, _⟩
  rw [h1] at he
  rcases List.mem_append.mp he with hn | h1e
  · rcases h3 e hn with ⟨q, hq, hqpid⟩
    have := sorted_props hq
    exact ⟨q, this.1, hqpid, this.2.1⟩
  · rcases pass1_entries ps ([], []) e h1e with habs | ⟨q, hq, hqpid, hqsid, hqtool, _⟩
    · cases habs
    · exact ⟨q, hq, hqpid, hqtool⟩

/-- C5: tool processes are never bound: in every snapshot built from
processes with distinct pids, a process marked is_tool_process has no
bound session, whatever its flags or directory. -/
theorem C5_tool_never_bound (db : DB) (ps : List ProcessInfo)
    (hnd : (ps.map fun p => p.pid).Nodup) :
    ∀ pr ∈ refresh_data db ps, pr.1.is_tool_process = true → pr.2 = none := by
  intro pr hpr htool
  rcases List.mem_map.mp hpr with ⟨p, hp, rfl⟩
  simp only at htool ⊢
  unfold bindingOf
  rcases hlk : alookup (pass2of db ps).2 p.pid with _ | s
  · rfl
  · exfalso
    have hmem := alookup_mem hlk
    rcases pass2_entries db ps (p.pid, s) hmem with ⟨q, hq, hqpid, hqtool⟩
    have := List.inj_on_of_nodup_map hnd hq hp hqpid
    rw [this] at hqtool
    rw [htool] at hqtool
    cases hqtool

theorem C5_tool_never_bound_witness :
    ((refresh_data wDB5 [wTool, wInter]).get ⟨0, by decide⟩).1.is_tool_process
        = true ∧
    ((refresh_data wDB5 [wTool, wInter]).get ⟨0, by decide⟩).2 = none := by
  refine ⟨by decide, ?_⟩
  exact C5_tool_never_bound wDB5 [wTool, wInter] (by decide) _
    (List.get_mem _ 0 (by decide)) (by decide)

/-- C2 counterexample: two distinct processes that both carry the explicit
flag -s ses_A are both bound to ses_A, so the bound session ids of the
snapshot contain a duplicate, contradicting the claimed uniqueness. -/
theorem C2_duplicate_counterexample :
    allBoundIds (refresh_data exDB2 [exP1, exP2]) = ["ses_A", "ses_A"] ∧
    ¬ (allBoundIds (refresh_data exDB2 [exP1, exP2])).Nodup := by
  refine ⟨by decide, by decide⟩

theorem nodup_filterMap_on {f : α → Option β} {l : List α} (hnd : l.Nodup)
    (H : ∀ a ∈ l, ∀ a' ∈ l, ∀ b, f a = some b → f a' = some b → a = a') :
    (l.filterMap f).Nodup := by
  induction l with
  | nil => simp
  | cons x xs ih =>
    rw [List.filterMap_cons]
    have hnd' := (List.nodup_cons.mp hnd).2
    have hx := (List.nodup_cons.mp hnd).1
    have H' : ∀ a ∈ xs, ∀ a' ∈ xs, ∀ b, f a = some b → f a' = some b → a = a' :=
      fun a ha a' ha' => H a (List.mem_cons_of_mem x ha) a' (List.mem_cons_of_mem x ha')
    rcases hfx : f x with _ | b
    · exact ih hnd' H'
    · rw [List.nodup_cons]
      refine ⟨?_, ih hnd' H'⟩
      intro hb
      rcases List.mem_filterMap.mp hb with ⟨a, ha, hfa⟩
      have := H x (List.mem_cons_self x xs) a (List.mem_cons_of_mem x ha) b hfx hfa
      rw [this] at hx
      exact hx ha

theorem binding_some {db : DB} {ps : List ProcessInfo} {p : ProcessInfo}
    {r : SessRow} (hb : bindingOf db ps p = some r) :
    alookup (pass2of db ps).2 p.pid = some r.id ∧ r.id ≠ "" := by
  unfold bindingOf at hb
  rcases hlk : alookup (pass2of db ps).2 p.pid with _ | s
  · rw [hlk] at hb
    cases hb
  · rw [hlk] at hb
    simp only at hb
    split_ifs at hb with hs
    · have hid : r.id = s := by
        have := List.find?_some hb
        simpa using this
      rw [hid]
      exact ⟨rfl, hid ▸ hs⟩

/-- C2 amended: with distinct pids, duplicates can arise only from
explicit -s flags: the bound ids of processes without a truthy explicit
flag contain no duplicate and never coincide with an explicitly bound
id. -/
theorem C2_inferred_unique (db : DB) (ps : List ProcessInfo)
    (hnd : (ps.map fun p => p.pid).Nodup) :
    (inferredBoundIds (refresh_data db ps)).Nodup ∧
    ∀ s ∈ inferredBoundIds (refresh_data db ps),
      s ∉ explicitBoundIds (refresh_data db ps) := by
  have hinj := List.inj_on_of_nodup_map hnd
  have hndps : ps.Nodup := List.Nodup.of_map _ hnd
  -- the pass-2 fold specification, instantiated once
  have hl : ∀ q ∈ sortBy (fun a b => a.start_time_ms ≤ b.start_time_ms)
      (remainingOf ps), sidTruthy q.session_id = false :=
    fun q hq => (sorted_props hq).2.2
  rcases pass2_fold_spec db _ hl (pass1of ps).1 (pass1of ps).2 with
    ⟨new, hres, hcl, hkeys, hndnew, hfresh⟩
  have hres' : (pass2of db ps).2 = new ++ (pass1of ps).2 := hres
  -- an inferred process that resolves to s owns the entry (pid, s) in new
  have hmemnew : ∀ p ∈ ps, sidTruthy p.session_id = false → ∀ s,
      alookup (pass2of db ps).2 p.pid = some s → (p.pid, s) ∈ new := by
    intro p hp hsid s hlk
    have hmem := alookup_mem hlk
    rw [hres'] at hmem
    rcases List.mem_append.mp hmem with hn | h1
    · exact hn
    · exfalso
      rcases pass1_entries ps ([], []) _ h1 with habs | ⟨q, hq, hqpid, hqsid, _, hqne⟩
      · cases habs
      · have : q = p := hinj hq hp hqpid
        rw [this] at hqsid
        rw [hqsid] at hsid
        simp [sidTruthy, hqne] at hsid
  -- the function computing an inferred bound id from a process
  have hInfEq : inferredBoundIds (refresh_data db ps) =
      ps.filterMap fun p => if sidTruthy p.session_id then none
        else (bindingOf db ps p).map fun r => r.id := by
    unfold inferredBoundIds refresh_data
    rw [List.filterMap_map]
    rfl
  have hExpEq : explicitBoundIds (refresh_data db ps) =
      ps.filterMap fun p => if sidTruthy p.session_id then
        (bindingOf db ps p).map fun r => r.id else none := by
    unfold explicitBoundIds refresh_data
    rw [List.filterMap_map]
    rfl
  -- destructing an inferred entry
  have hdest : ∀ p ∈ ps, ∀ s,
      (if sidTruthy p.session_id then none
        else (bindingOf db ps p).map fun r => r.id) = some s →
      sidTruthy p.session_id = false ∧ (p.pid, s) ∈ new ∧ s ≠ "" := by
    intro p hp s hval
    by_cases hsid : sidTruthy p.session_id
    · rw [if_pos hsid] at hval
      cases hval
    · rw [if_neg hsid] at hval
      rcases Option.map_eq_some'.mp hval with ⟨r, hbind, hrid⟩
      rcases binding_some hbind with ⟨hlk, hne⟩
      rw [hrid] at hlk hne
      have hsid' : sidTruthy p.session_id = false := by
        cases h : sidTruthy p.session_id
        · rfl
        · exact absurd h hsid
      exact ⟨hsid', hmemnew p hp hsid' s hlk, hne⟩
  have hsndinj : ∀ e₁ ∈ new, ∀ e₂ ∈ new, e₁.2 = e₂.2 → e₁ = e₂ := by
    intro e₁ h₁ e₂ h₂ hsnd
    exact List.inj_on_of_nodup_map hndnew h₁ h₂ hsnd
  constructor
  · rw [hInfEq]
    apply nodup_filterMap_on hndps
    intro a ha a' ha' b hfa hfa'
    rcases hdest a ha b hfa with ⟨_, hae, _⟩
    rcases hdest a' ha' b hfa' with ⟨_, hae', _⟩
    have := hsndinj _ hae _ hae' rfl
    have hpid : a.pid = a'.pid := congrArg Prod.fst this
    exact hinj ha ha' hpid
  · intro s hs hs'
    rw [hInfEq] at hs
    rcases List.mem_filterMap.mp hs with ⟨p, hp, hfp⟩
    rcases hdest p hp s hfp with ⟨_, hpe, _⟩
    -- s is a fresh pass-2 id, hence outside the pass-1 claimed set
    have hs1 : s ∉ (pass1of ps).1 :=
      hfresh s (List.mem_map.mpr ⟨(p.pid, s), hpe, rfl⟩)
    -- but every explicitly bound id lies in the pass-1 claimed set
    rw [hExpEq] at hs'
    rcases List.mem_filterMap.mp hs' with ⟨q, hq, hfq⟩
    by_cases hqsid : sidTruthy q.session_id
    · rw [if_pos hqsid] at hfq
      rcases Option.map_eq_some'.mp hfq with ⟨r, hbind, hrid⟩
      rcases binding_some hbind with ⟨hlkq, _⟩
      rw [hrid] at hlkq
      have hmemq := alookup_mem hlkq
      rw [hres'] at hmemq
      rcases List.mem_append.mp hmemq with hn | h1
      · rcases hkeys _ hn with ⟨w, hw, hwpid⟩
        rcases sorted_props hw with ⟨hwps, _, hwsid⟩
        have : w = q := hinj hwps hq hwpid
        rw [this] at hwsid
        rw [hwsid] at hqsid
        cases hqsid
      · rcases pass1_entries ps ([], []) _ h1 with habs | ⟨w, hw, hwpid, hwsid, hwtool, hwne⟩
        · cases habs
        · have hwq : w = q := hinj hw hq hwpid
          have := pass1_mem_of_explicit ps ([], []) w hw s hwsid hwne hwtool
          exact hs1 this.2
    · rw [if_neg hqsid] at hfq
      cases hfq

theorem C2_inferred_unique_witness :
    (inferredBoundIds (refresh_data wDB2 [wExplicitP, wInferP])).Nodup ∧
    "ses_A" ∉ explicitBoundIds (refresh_data wDB2 [wExplicitP, wInferP]) := by
  have h := C2_inferred_unique wDB2 [wExplicitP, wInferP] (by decide)
  exact ⟨h.1, h.2 "ses_A" (by decide)⟩

/-- C3: two non-tool processes without explicit flags share a cwd holding
exactly the sessions A and B; A has strictly more messages than B since
the older start, and B still has activity since the newer start.  Then
even when the snapshot lists the newer process q first, the older process
p binds to A and q binds to B. -/
theorem C3_oldest_first_binding (db : DB) (p q : ProcessInfo) (sA sB : SessRow)
    (hpt : p.is_tool_process = false) (hqt : q.is_tool_process = false)
    (hps : p.session_id = none) (hqs : q.session_id = none)
    (hcwd : q.cwd = p.cwd) (hc1 : p.cwd ≠ "") (hc2 : p.cwd ≠ "?")
    (hstart : 0 < p.start_time_ms) (hlt : p.start_time_ms < q.start_time_ms)
    (hpid : p.pid ≠ q.pid)
    (hfilter : db.sessions.filter (fun r => r.directory == p.cwd) = [sA, sB])
    (hids : sA.id ≠ sB.id) (hA : sA.id ≠ "") (hB : sB.id ≠ "")
    (hnodup : (db.sessions.map fun r => r.id).Nodup)
    (hcnt1 : msgsSince db sB.id p.start_time_ms
      < msgsSince db sA.id p.start_time_ms)
    (hcnt2 : 1 ≤ msgsSince db sB.id q.start_time_ms) :
    refresh_data db [q, p] = [(q, some sB), (p, some sA)] := by
  have hsubA : sA ∈ db.sessions := by
    have hm : sA ∈ db.sessions.filter (fun r => r.directory == p.cwd) := by
      rw [hfilter]
      simp
    exact List.mem_of_mem_filter hm
  have hsubB : sB ∈ db.sessions := by
    have hm : sB ∈ db.sessions.filter (fun r => r.directory == p.cwd) := by
      rw [hfilter]
      simp
    exact List.mem_of_mem_filter hm
  have hgsA : get_session_info db sA.id = some sA := find_unique_session hnodup hsubA
  have hgsB : get_session_info db sB.id = some sB := find_unique_session hnodup hsubB
  have h1 : pass1of [q, p] = ([], []) := by
    simp [pass1of, pass1step, hqs, hps, sidTruthy]
  have h2 : remainingOf [q, p] = [q, p] := by
    simp [remainingOf, h1, alookup, hqt, hpt]
  have h3 : sortBy (fun a b => a.start_time_ms ≤ b.start_time_ms) [q, p]
      = [p, q] := by
    have hle : ¬ (q.start_time_ms ≤ p.start_time_ms) := not_le.mpr hlt
    simp [sortBy, insortBy, hle]
  have hstartq : 0 < q.start_time_ms := lt_trans hstart hlt
  have hnA : 0 < msgsSince db sA.id p.start_time_ms :=
    Nat.lt_of_le_of_lt (Nat.zero_le _) hcnt1
  have hfp : find_session_for_process db p [] = some sA.id := by
    unfold find_session_for_process
    have hcand : find_candidate_sessions db p.cwd p.start_time_ms
        = (sA.id, msgsSince db sA.id p.start_time_ms) ::
          (if 0 < msgsSince db sB.id p.start_time_ms then
            [(sB.id, msgsSince db sB.id p.start_time_ms)] else []) := by
      by_cases hbp : 0 < msgsSince db sB.id p.start_time_ms <;>
        simp [find_candidate_sessions, hfilter, hnA, hbp, sortBy, insortBy,
          Nat.le_of_lt hcnt1]
    by_cases hbp : 0 < msgsSince db sB.id p.start_time_ms <;>
      simp [hps, sidTruthy, hc1, hc2, hstart, hcand, hbp, List.find?]
  have hfq : find_session_for_process db q [sA.id] = some sB.id := by
    unfold find_session_for_process
    rw [hcwd]
    have hne : ¬ (sB.id = sA.id) := Ne.symm hids
    by_cases hbq : 0 < msgsSince db sA.id q.start_time_ms
    · by_cases hord : msgsSince db sB.id q.start_time_ms
          ≤ msgsSince db sA.id q.start_time_ms
      · have hcand : find_candidate_sessions db p.cwd q.start_time_ms
            = [(sA.id, msgsSince db sA.id q.start_time_ms),
               (sB.id, msgsSince db sB.id q.start_time_ms)] := by
          simp [find_candidate_sessions, hfilter, hbq, hcnt2, sortBy, insortBy,
            hord, Nat.lt_of_lt_of_le (Nat.lt_of_lt_of_le Nat.zero_lt_one hcnt2) le_rfl]
        simp [hqs, sidTruthy, hc1, hc2, hstartq, hcand, List.find?, hne]
      · have hcand2 : find_candidate_sessions db p.cwd q.start_time_ms
            = [(sB.id, msgsSince db sB.id q.start_time_ms),
               (sA.id, msgsSince db sA.id q.start_time_ms)] := by
          simp [find_candidate_sessions, hfilter, hbq, hcnt2, sortBy, insortBy,
            hord, Nat.lt_of_lt_of_le Nat.zero_lt_one hcnt2]
        simp [hqs, sidTruthy, hc1, hc2, hstartq, hcand2, List.find?, hne]
    · have hcand3 : find_candidate_sessions db p.cwd q.start_time_ms
          = [(sB.id, msgsSince db sB.id q.start_time_ms)] := by
        simp [find_candidate_sessions, hfilter, hbq, hcnt2, sortBy, insortBy,
          Nat.lt_of_lt_of_le Nat.zero_lt_one hcnt2]
      simp [hqs, sidTruthy, hc1, hc2, hstartq, hcand3, List.find?, hne]
  have hp2 : pass2of db [q, p]
      = ([sB.id, sA.id], [(q.pid, sB.id), (p.pid, sA.id)]) := by
    unfold pass2of
    rw [h2, h3, h1]
    have hstep1 : pass2step db ([], []) p = ([sA.id], [(p.pid, sA.id)]) := by
      simp [pass2step, hfp, sidTruthy, hA]
    have hstep2 : pass2step db ([sA.id], [(p.pid, sA.id)]) q
        = ([sB.id, sA.id], [(q.pid, sB.id), (p.pid, sA.id)]) := by
      simp [pass2step, hfq, sidTruthy, hB]
    simp [List.foldl, hstep1, hstep2]
  have hbq : bindingOf db [q, p] q = some sB := by
    simp [bindingOf, hp2, alookup, List.find?, hB, hgsB]
  have hbp : bindingOf db [q, p] p = some sA := by
    have hqp : ¬ (q.pid = p.pid) := Ne.symm hpid
    simp [bindingOf, hp2, alookup, List.find?, hqp, hA, hgsA]
  simp [refresh_data, hbq, hbp]

theorem C3_oldest_first_binding_witness :
    refresh_data wDB3 [w3Q, w3P] = [(w3Q, some w3B), (w3P, some w3A)] := by
  exact C3_oldest_first_binding wDB3 w3P w3Q w3A w3B (by decide) (by decide)
    (by decide) (by decide) (by decide) (by decide) (by decide) (by decide)
    (by decide) (by decide) (by decide) (by decide) (by decide) (by decide)
    (by decide) (by decide) (by decide)

theorem rhe_intCast (n : ℤ) : rhe (n : ℚ) = n := by
  unfold rhe
  norm_num

theorem rhe_floor_le (q : ℚ) : ⌊q⌋ ≤ rhe q := by
  unfold rhe
  split_ifs <;> omega

theorem rhe_le_floor_add_one (q : ℚ) : rhe q ≤ ⌊q⌋ + 1 := by
  unfold rhe
  split_ifs <;> omega

theorem rhe_mono {a b : ℚ} (h : a ≤ b) : rhe a ≤ rhe b := by
  by_cases hf : ⌊a⌋ = ⌊b⌋
  · have hab : a - ⌊b⌋ ≤ b - ⌊b⌋ := by linarith
    unfold rhe
    rw [hf]
    split_ifs <;> first | omega | (exfalso; linarith)
  · have hflt : ⌊a⌋ < ⌊b⌋ :=
      lt_of_le_of_ne (Int.floor_le_floor h) hf
    calc rhe a ≤ ⌊a⌋ + 1 := rhe_le_floor_add_one a
      _ ≤ ⌊b⌋ := by omega
      _ ≤ rhe b := rhe_floor_le b

theorem tokDenote_small {n : ℕ} (h : n < 1000) :
    tokDenote (format_tokens n) = n := by
  unfold format_tokens
  rw [if_neg (by omega : ¬ 1000000 ≤ n), if_neg (by omega : ¬ 1000 ≤ n)]
  simp [tokDenote]

theorem tokDenote_K {n : ℕ} (h1 : 1000 ≤ n) (h2 : n < 1000000) :
    tokDenote (format_tokens n) = (rhe ((n : ℚ) / 100) : ℚ) * 100 := by
  unfold format_tokens
  rw [if_neg (by omega : ¬ 1000000 ≤ n), if_pos h1]
  have harg : (10 * (n : ℚ)) / 1000 = (n : ℚ) / 100 := by ring
  simp [tokDenote, show ("K" : String) ≠ "M" by decide, harg]
  ring

theorem tokDenote_M {n : ℕ} (h1 : 1000000 ≤ n) :
    tokDenote (format_tokens n) = (rhe ((n : ℚ) / 100000) : ℚ) * 100000 := by
  unfold format_tokens
  rw [if_pos h1]
  have harg : (10 * (n : ℚ)) / 1000000 = (n : ℚ) / 100000 := by ring
  simp [tokDenote, harg]
  ring

theorem K_denote_lb {n : ℕ} (h1 : 1000 ≤ n) :
    (1000 : ℚ) ≤ (rhe ((n : ℚ) / 100) : ℚ) * 100 := by
  have hn : (1000 : ℚ) ≤ (n : ℚ) := by exact_mod_cast h1
  have hfl : (10 : ℤ) ≤ ⌊(n : ℚ) / 100⌋ := by
    rw [Int.le_floor]
    rw [le_div_iff (by norm_num : (0 : ℚ) < 100)]
    push_cast
    linarith
  have hr : (10 : ℤ) ≤ rhe ((n : ℚ) / 100) := le_trans hfl (rhe_floor_le _)
  have hrq : (10 : ℚ) ≤ (rhe ((n : ℚ) / 100) : ℚ) := by exact_mod_cast hr
  linarith

theorem K_denote_ub {n : ℕ} (h2 : n < 1000000) :
    (rhe ((n : ℚ) / 100) : ℚ) * 100 ≤ 1000000 := by
  have hn : (n : ℚ) < 1000000 := by exact_mod_cast h2
  have hfl : ⌊(n : ℚ) / 100⌋ < 10000 := by
    rw [Int.floor_lt]
    rw [div_lt_iff (by norm_num : (0 : ℚ) < 100)]
    push_cast
    linarith
  have hr : rhe ((n : ℚ) / 100) ≤ 10000 :=
    le_trans (rhe_le_floor_add_one _) (by omega)
  have hrq : (rhe ((n : ℚ) / 100) : ℚ) ≤ 10000 := by exact_mod_cast hr
  linarith

theorem M_denote_lb {n : ℕ} (h1 : 1000000 ≤ n) :
    (1000000 : ℚ) ≤ (rhe ((n : ℚ) / 100000) : ℚ) * 100000 := by
  have hn : (1000000 : ℚ) ≤ (n : ℚ) := by exact_mod_cast h1
  have hfl : (10 : ℤ) ≤ ⌊(n : ℚ) / 100000⌋ := by
    rw [Int.le_floor]
    rw [le_div_iff (by norm_num : (0 : ℚ) < 100000)]
    push_cast
    linarith
  have hr : (10 : ℤ) ≤ rhe ((n : ℚ) / 100000) := le_trans hfl (rhe_floor_le _)
  have hrq : (10 : ℚ) ≤ (rhe ((n : ℚ) / 100000) : ℚ) := by exact_mod_cast hr
  linarith

/-- C9 amended: format_tokens is monotone in the count a formatted string
denotes (its numeric value times the K or M multiplier), though not in the
bare numeric value. -/
theorem C9_denote_monotone (n1 n2 : ℕ) (h : n1 ≤ n2) :
    tokDenote (format_tokens n1) ≤ tokDenote (format_tokens n2) := by
  have hcast : (n1 : ℚ) ≤ (n2 : ℚ) := by exact_mod_cast h
  rcases lt_or_le n1 1000 with hs1 | hl1
  · rcases lt_or_le n2 1000 with hs2 | hl2
    · rw [tokDenote_small hs1, tokDenote_small hs2]
      exact hcast
    · rcases lt_or_le n2 1000000 with hm2 | hM2
      · rw [tokDenote_small hs1, tokDenote_K hl2 hm2]
        have hb : (n1 : ℚ) ≤ 1000 := by exact_mod_cast le_of_lt hs1
        exact le_trans hb (K_denote_lb hl2)
      · rw [tokDenote_small hs1, tokDenote_M hM2]
        have hb : (n1 : ℚ) ≤ 1000000 := by
          exact_mod_cast le_of_lt (lt_trans hs1 (by norm_num))
        exact le_trans hb (M_denote_lb hM2)
  · rcases lt_or_le n1 1000000 with hm1 | hM1
    · rcases lt_or_le n2 1000000 with hm2 | hM2
      · rw [tokDenote_K hl1 hm1, tokDenote_K (le_trans hl1 h) hm2]
        have harg : (n1 : ℚ) / 100 ≤ (n2 : ℚ) / 100 := by linarith
        have hr := rhe_mono harg
        have hrq : ((rhe ((n1 : ℚ) / 100)) : ℚ) ≤ ((rhe ((n2 : ℚ) / 100)) : ℚ) := by
          exact_mod_cast hr
        linarith
      · rw [tokDenote_K hl1 hm1, tokDenote_M hM2]
        exact le_trans (K_denote_ub hm1) (M_denote_lb hM2)
    · have hM2 : 1000000 ≤ n2 := le_trans hM1 h
      rw [tokDenote_M hM1, tokDenote_M hM2]
      have harg : (n1 : ℚ) / 100000 ≤ (n2 : ℚ) / 100000 := by linarith
      have hr := rhe_mono harg
      have hrq : ((rhe ((n1 : ℚ) / 100000)) : ℚ)
          ≤ ((rhe ((n2 : ℚ) / 100000)) : ℚ) := by
        exact_mod_cast hr
      linarith

theorem C9_denote_monotone_witness :
    tokDenote (format_tokens 999) ≤ tokDenote (format_tokens 1000) :=
  C9_denote_monotone 999 1000 (by norm_num)

theorem C9_numeric_value_counterexample :
    (999 : ℕ) ≤ 1000 ∧
    ¬ (format_tokens 999).pfx ≤ (format_tokens 1000).pfx := by
  have h999 : (format_tokens 999).pfx = 999 := by norm_num [format_tokens]
  have hr10 : rhe (10 : ℚ) = 10 := by
    have h := rhe_intCast 10
    push_cast at h
    exact h
  have h1000 : (format_tokens 1000).pfx = 1 := by
    norm_num [format_tokens, hr10]
  rw [h999, h1000]
  norm_num

end Otop
